import Mathlib

/-!
Shallow embedding of `lib/transaction/tracer/debug.js` (the debug execution
tracer): the Transaction/Segment/Call entity hierarchy, the Describer recorder,
and the Tracer with its three proxy constructors.  JavaScript objects become
immutable Lean records; the mutable counter fields of the objects (`numSegments`,
`numCalls`, `numTransactions`) are threaded through an explicit `Tracer` state
record, keyed by entity ids (tracer-created entity ids are unique, so ids act
as addresses).  Exceptions become `Except String`; a thrown error propagates
without rolling back the state, so every fallible operation returns the updated
state alongside the `Except` result.
-/

namespace NR

/-- JavaScript runtime values, as far as the tracer observes them: the tracer
only ever checks truthiness, stores values in entity fields, and invokes
function values.  A function value is a reference tag interpreted by a `FnEnv`. -/
inductive Value where
  | undef
  | nullv
  | boolv (b : Bool)
  | num (n : Int)
  | str (s : String)
  | obj (tag : Nat)
  | fn (tag : Nat)
deriving DecidableEq, Repr

/-- JavaScript truthiness: `!x` in the guard clauses of the source. -/
def Value.falsy : Value → Bool
  | .undef => true
  | .nullv => true
  | .boolv b => !b
  | .num n => n == 0
  | .str s => s == ""
  | .obj _ => false
  | .fn _ => false

/-- Source `Transaction`: `id` and `value`, immutable after construction.  The mutable
`numSegments` counter lives in the `Tracer` state (`segCount`). -/
structure Transaction where
  id : Nat
  value : Value
deriving DecidableEq, Repr

/-- Source `Segment`: `id`, back-reference to its owning `transaction`, and `value`.
The mutable `numCalls` counter lives in the `Tracer` state (`callCount`). -/
structure Segment where
  id : Nat
  transaction : Transaction
  value : Value
deriving DecidableEq, Repr

/-- Source `Call`: `id`, back-reference to its owning `segment`, and `value` (the
wrapped handler). -/
structure Call where
  id : Nat
  segment : Segment
  value : Value
deriving DecidableEq, Repr

/-- Source `Call.prototype.format`: `util.format("T%dS%dC%d", this.segment.transaction.id,
this.segment.id, this.id)`. -/
def Call.format (c : Call) : String :=
  "T" ++ toString c.segment.transaction.id ++ "S" ++ toString c.segment.id
    ++ "C" ++ toString c.id

/-- The `Transaction` constructor: throws on a falsy `id` or `value`, otherwise
stores both fields.  A numeric id is falsy exactly when it is `0`. -/
def Transaction.make (id : Nat) (value : Value) : Except String Transaction :=
  if id = 0 then .error "Transactions must have an ID."
  else if value.falsy then .error "Transactions must be associated with a value."
  else .ok ⟨id, value⟩

/-- The `Segment` constructor: throws on a falsy `id`, a missing `transaction`
(a null/undefined object reference is `none`), or a falsy `value`. -/
def Segment.make (id : Nat) (transaction : Option Transaction) (value : Value) :
    Except String Segment :=
  if id = 0 then .error "Segments must have an ID."
  else
    match transaction with
    | none => .error "Segments must be associated with a transaction."
    | some t =>
      if value.falsy then .error "Segments must be associated with a value."
      else .ok ⟨id, t, value⟩

/-- The `Call` constructor: throws on a falsy `id`, a missing `segment`, or a
falsy `value`. -/
def Call.make (id : Nat) (segment : Option Segment) (value : Value) :
    Except String Call :=
  if id = 0 then .error "Calls must have an ID."
  else
    match segment with
    | none => .error "Calls must be associated with a segment."
    | some s =>
      if value.falsy then .error "Calls must be associated with a segment value."
      else .ok ⟨id, s, value⟩

/-- Modelled from the spec: the `State` class (`lib/transaction/tracer/state.js`)
is required by the source but is not under `src/`; spec §3 describes it as an
immutable triple `(transaction, segment, call)` plus a boolean "full" marker,
never mutated after construction. -/
structure State where
  transaction : Transaction
  segment : Segment
  call : Call
  full : Bool
deriving DecidableEq, Repr

/-- The ancestor triple of a state is consistent: its call was created under its
segment and its segment belongs to its transaction. -/
def State.consistent (s : State) : Prop :=
  s.call.segment = s.segment ∧ s.segment.transaction = s.transaction

instance (s : State) : Decidable s.consistent := by
  unfold State.consistent; infer_instance

/-- Modelled from the spec: the Context Contract (§6) — an external shared slot
with `enter`/`exit` that must nest like a stack and a readable current state.
Represented as the stack itself; the current state is the top. -/
structure Context where
  stack : List State
deriving DecidableEq, Repr

/-- Modelled from the spec: `currentState()` / the readable `state` property —
the active `State` or a none sentinel; side-effect-free. -/
def Context.state (c : Context) : Option State := c.stack.head?

/-- Modelled from the spec: `enter(state)` makes `state` active, saving whatever
was previously active. -/
def Context.enter (c : Context) (s : State) : Context := ⟨s :: c.stack⟩

/-- Modelled from the spec: `exit(state)` restores whatever was active
immediately before the matching `enter(state)`.  The tracer always calls
enter/exit in matched pairs, so a plain pop realises the contract. -/
def Context.exit (c : Context) (_s : State) : Context := ⟨c.stack.tail⟩

/-- The `Describer`: four append-only logs (call trace, creations, wrappings,
and the interleaved verbose log). -/
structure Describer where
  trace : List String
  creations : List String
  wrappings : List String
  verbose : List String
deriving DecidableEq, Repr

/-- A fresh `Describer`: all four logs empty. -/
def Describer.empty : Describer := ⟨[], [], [], []⟩

/-- Source `Describer.prototype.traceCall`: pushes `direction + call.format()` onto the
trace log and the verbose log. -/
def Describer.traceCall (d : Describer) (direction : String) (call : Call) :
    Describer :=
  let id := direction ++ call.format
  { d with trace := d.trace ++ [id], verbose := d.verbose ++ [id] }

/-- Source `Describer.prototype.traceCreation`: pushes `"+" + type[0]` onto the
creations log and the verbose log. -/
def Describer.traceCreation (d : Describer) (type : String) : Describer :=
  let creation := "+" ++ type.take 1
  { d with creations := d.creations ++ [creation], verbose := d.verbose ++ [creation] }

/-- Source `Describer.prototype.traceWrapping`: pushes `direction + type` onto the
wrappings log and the verbose log. -/
def Describer.traceWrapping (d : Describer) (direction : String) (type : String) :
    Describer :=
  let wrapping := direction ++ type
  { d with wrappings := d.wrappings ++ [wrapping], verbose := d.verbose ++ [wrapping] }

/-- Statement helper: a describer with the four logs extended by the given
suffixes. -/
def Describer.extend (d : Describer) (tr cr wr vb : List String) : Describer :=
  ⟨d.trace ++ tr, d.creations ++ cr, d.wrappings ++ wr, d.verbose ++ vb⟩

/-- Modelled from the spec: the request-value producer (§6) — `createTransaction`
returns a new request value, and `getTraceRoot` models `value.getTrace().root`,
the way a request value exposes its root-segment value. -/
structure Agent where
  createTransaction : Value
  getTraceRoot : Value → Value

/-- The mutable state of the `Tracer`: its transaction counter, the per-entity
mutable counters (`numSegments` keyed by transaction id, `numCalls` keyed by
(transaction id, segment id)), the shared context, and the describer.  The agent
is passed explicitly to the operations that consult it (the source stores it on
the tracer object). -/
structure Tracer where
  numTransactions : Nat
  segCount : List (Nat × Nat)
  callCount : List ((Nat × Nat) × Nat)
  context : Context
  describer : Describer
deriving DecidableEq, Repr

/-- Read a counter table; an entity whose counter was never touched is at its
initial `0`. -/
def getCount {κ : Type} [DecidableEq κ] (t : List (κ × Nat)) (k : κ) : Nat :=
  match t with
  | [] => 0
  | p :: rest => if p.1 = k then p.2 else getCount rest k

/-- Write a counter table. -/
def setCount {κ : Type} [DecidableEq κ] (t : List (κ × Nat)) (k : κ) (n : Nat) :
    List (κ × Nat) :=
  match t with
  | [] => [(k, n)]
  | p :: rest => if p.1 = k then (k, n) :: rest else p :: setCount rest k n

/-- Source `Transaction.prototype.addSegment`: `this.numSegments += 1; return new
Segment(this.numSegments, this, value)`.  The increment persists even when the
`Segment` constructor throws. -/
def Transaction.addSegment (t : Transaction) (value : Value) (tr : Tracer) :
    Except String Segment × Tracer :=
  let n := getCount tr.segCount t.id + 1
  let tr1 := { tr with segCount := setCount tr.segCount t.id n }
  (Segment.make n (some t) value, tr1)

/-- Source `Segment.prototype.addCall`: `this.numCalls += 1; return new
Call(this.numCalls, this, value)`. -/
def Segment.addCall (s : Segment) (value : Value) (tr : Tracer) :
    Except String Call × Tracer :=
  let n := getCount tr.callCount (s.transaction.id, s.id) + 1
  let tr1 := { tr with callCount := setCount tr.callCount (s.transaction.id, s.id) n }
  (Call.make n (some s) value, tr1)

/-- The `Tracer` constructor: throws when the agent or the shared context is
absent; otherwise stores both and starts with `numTransactions = 0` and a fresh
`Describer`. -/
def Tracer.make (agent : Option Agent) (context : Option Context) :
    Except String (Agent × Tracer) :=
  match agent with
  | none => .error "Must be initialized with an agent."
  | some a =>
    match context with
    | none => .error "Must include shared context."
    | some c => .ok (a, ⟨0, [], [], c, Describer.empty⟩)

/-- Source `Tracer.prototype.enter`: log the enter token for `state.call`, then
`context.enter(state)`. -/
def Tracer.enter (tr : Tracer) (s : State) : Tracer :=
  { tr with describer := tr.describer.traceCall "->" s.call,
            context := tr.context.enter s }

/-- Source `Tracer.prototype.exit`: log the exit token for `state.call`, then
`context.exit(state)`. -/
def Tracer.exit (tr : Tracer) (s : State) : Tracer :=
  { tr with describer := tr.describer.traceCall "<-" s.call,
            context := tr.context.exit s }

/-- Source `Tracer.prototype.addTransaction`: increments `numTransactions`, logs
`"+T"`, then constructs `new Transaction(this.numTransactions, value)`.  The
increment and the log survive a constructor throw. -/
def Tracer.addTransaction (value : Value) (tr : Tracer) :
    Except String Transaction × Tracer :=
  let tr1 := { tr with numTransactions := tr.numTransactions + 1 }
  let tr2 := { tr1 with describer := tr1.describer.traceCreation "Trace" }
  (Transaction.make (tr.numTransactions + 1) value, tr2)

/-- Source `Tracer.prototype.addSegment`: logs `"+S"`, then `transaction.addSegment(value)`. -/
def Tracer.addSegment (transaction : Transaction) (value : Value) (tr : Tracer) :
    Except String Segment × Tracer :=
  let tr1 := { tr with describer := tr.describer.traceCreation "Segment" }
  transaction.addSegment value tr1

/-- Source `Tracer.prototype.addCall`: logs `"+C"`, then `segment.addCall(value)`. -/
def Tracer.addCall (segment : Segment) (value : Value) (tr : Tracer) :
    Except String Call × Tracer :=
  let tr1 := { tr with describer := tr.describer.traceCreation "Call" }
  segment.addCall value tr1

/-- Interpretation of function values: tag ↦ (receiver, arguments) ↦ result or
thrown error.  Handlers are opaque to the tracer. -/
abbrev FnEnv : Type := Nat → Value → List Value → Except String Value

/-- Source `f.apply(thisArg, args)`: invoking a non-function value throws. -/
def applyFn (env : FnEnv) (f : Value) (thisArg : Value) (args : List Value) :
    Except String Value :=
  match f with
  | .fn tag => env tag thisArg args
  | _ => .error "TypeError: not a function"

/-- A callable as the proxies produce and consume them: receiver, arguments, and
the tracer state in, an `Except` result (normal return or thrown error) and the
updated tracer state out. -/
abbrev Callable (α : Type) : Type :=
  Value → List Value → Tracer → Except String α × Tracer

/-- Source `Describer.prototype.wrapExecution`: returns a callable that logs
`-> type`, runs `handler` with the original receiver and arguments, logs
`<- type`, and returns the result.  A throw from `handler` skips the closing
wrapping token. -/
def wrapExecution {α : Type} (type : String) (handler : Callable α) : Callable α :=
  fun thisArg args tr =>
    let tr1 := { tr with describer := tr.describer.traceWrapping "->" type }
    match handler thisArg args tr1 with
    | (.ok returned, tr2) =>
      (.ok returned, { tr2 with describer := tr2.describer.traceWrapping "<-" type })
    | (.error e, tr2) => (.error e, tr2)

/-- The inner closure body of `transactionProxy`: create a transaction value
via the agent, a `Transaction`, a root `Segment`, and a `Call` wrapping the
handler; enter the fresh `State`, invoke the handler, exit, return its result.
A throw at any step propagates, skipping the rest. -/
def transactionInner (agent : Agent) (env : FnEnv) (handler : Value) :
    Callable Value :=
  fun thisArg args tr =>
    let value := agent.createTransaction
    match Tracer.addTransaction value tr with
    | (.error e, tr1) => (.error e, tr1)
    | (.ok transaction, tr1) =>
      match Tracer.addSegment transaction (agent.getTraceRoot value) tr1 with
      | (.error e, tr2) => (.error e, tr2)
      | (.ok segment, tr2) =>
        match Tracer.addCall segment handler tr2 with
        | (.error e, tr3) => (.error e, tr3)
        | (.ok call, tr3) =>
          let state : State := ⟨transaction, segment, call, true⟩
          let tr4 := tr3.enter state
          match applyFn env handler thisArg args with
          | .error e => (.error e, tr4)
          | .ok returned => (.ok returned, tr4.exit state)

/-- Source `Tracer.prototype.transactionProxy`: wraps the handler in the `T inner`
layer, and immediately invokes (with no receiver and no arguments) the
`T outer`-wrapped closure that returns that inner callable — so construction
itself only crosses the outer wrapping boundary. -/
def Tracer.transactionProxy (agent : Agent) (env : FnEnv) (handler : Value)
    (tr : Tracer) : Except String (Callable Value) × Tracer :=
  wrapExecution "T outer"
    (fun _ _ tr0 =>
      (.ok (wrapExecution "T inner" (transactionInner agent env handler)), tr0))
    .undef [] tr

/-- The inner closure body of `segmentProxy`: read the current context state
at invocation time; with none, invoke the handler directly (pure
passthrough); otherwise create a `Segment` under the existing transaction
(reusing the value of the current segment) and a `Call` wrapping the handler, enter,
invoke, exit, return. -/
def segmentInner (env : FnEnv) (handler : Value) : Callable Value :=
  fun thisArg args tr =>
    match tr.context.state with
    | none => (applyFn env handler thisArg args, tr)
    | some state =>
      match Tracer.addSegment state.transaction state.segment.value tr with
      | (.error e, tr1) => (.error e, tr1)
      | (.ok segment, tr1) =>
        match Tracer.addCall segment handler tr1 with
        | (.error e, tr2) => (.error e, tr2)
        | (.ok call, tr2) =>
          let state1 : State := ⟨state.transaction, segment, call, true⟩
          let tr3 := tr2.enter state1
          match applyFn env handler thisArg args with
          | .error e => (.error e, tr3)
          | .ok returned => (.ok returned, tr3.exit state1)

/-- Source `Tracer.prototype.segmentProxy`: wraps the handler in the `S inner` layer
and immediately invokes the `S outer`-wrapped closure returning it. -/
def Tracer.segmentProxy (env : FnEnv) (handler : Value) (tr : Tracer) :
    Except String (Callable Value) × Tracer :=
  wrapExecution "S outer"
    (fun _ _ tr0 => (.ok (wrapExecution "S inner" (segmentInner env handler)), tr0))
    .undef [] tr

/-- The inner closure body of `callbackProxy`: build a fresh `State` from the
transaction and segment captured at construction and the call created at
construction, enter it, invoke the handler, exit, return the result. -/
def callbackInner (env : FnEnv) (handler : Value) (captured : State) (call : Call) :
    Callable Value :=
  fun thisArg args tr =>
    let state1 : State := ⟨captured.transaction, captured.segment, call, true⟩
    let tr1 := tr.enter state1
    match applyFn env handler thisArg args with
    | .error e => (.error e, tr1)
    | .ok returned => (.ok returned, tr1.exit state1)

/-- Source `Tracer.prototype.callbackProxy`: reads the current context state at
construction time.  With none, returns the handler unwrapped; otherwise
immediately invokes the `C outer`-wrapped closure that creates one `Call` under
the `call.segment` of the captured state and returns the `C inner`-wrapped callable
carrying the captured state and that call. -/
def Tracer.callbackProxy (env : FnEnv) (handler : Value) (tr : Tracer) :
    Except String (Callable Value) × Tracer :=
  match tr.context.state with
  | none => (.ok (fun thisArg args tr0 => (applyFn env handler thisArg args, tr0)), tr)
  | some state =>
    wrapExecution "C outer"
      (fun _ _ tr0 =>
        match Tracer.addCall state.call.segment handler tr0 with
        | (.error e, tr1) => (.error e, tr1)
        | (.ok call, tr1) =>
          (.ok (wrapExecution "C inner" (callbackInner env handler state call)), tr1))
      .undef [] tr

/-- A concrete agent whose request value and root-segment value are truthy. -/
def agent0 : Agent := ⟨Value.obj 1, fun _ => Value.obj 2⟩

/-- A function environment where every function returns `42`. -/
def env42 : FnEnv := fun _ _ _ => .ok (Value.num 42)

/-- A fresh tracer over an empty context. -/
def tracer0 : Tracer := ⟨0, [], [], ⟨[]⟩, Describer.empty⟩

/-- The direct-call scenario: construct `transactionProxy` over a handler
returning `42` on a fresh tracer, then invoke the returned callable once. -/
def directRun : Except String Value × Tracer :=
  match Tracer.transactionProxy agent0 env42 (Value.fn 0) tracer0 with
  | (.ok k, tr1) => k .undef [] tr1
  | (.error e, tr1) => (.error e, tr1)

/-- A function environment where every function throws "boom". -/
def envBoom : FnEnv := fun _ _ _ => .error "boom"

/-- A concrete consistent entity chain and state for witnesses. -/
def tx1 : Transaction := ⟨1, Value.obj 1⟩

/-- Witness segment under `tx1`. -/
def seg1 : Segment := ⟨1, tx1, Value.obj 2⟩

/-- Witness call under `seg1`. -/
def call1 : Call := ⟨1, seg1, Value.fn 9⟩

/-- Witness state built from the chain above; its ancestor triple is consistent. -/
def state1 : State := ⟨tx1, seg1, call1, true⟩

/-- A tracer whose context has `state1` active. -/
def tracer1 : Tracer := ⟨0, [], [], ⟨[state1]⟩, Describer.empty⟩

/-- Every state on the context stack of the tracer has a consistent ancestor
triple.  States reach the stack only through `Tracer.enter`, so this is the
formal counterpart of "every state passed to enter is consistent". -/
def Tracer.ctxConsistent (tr : Tracer) : Prop :=
  ∀ s ∈ tr.context.stack, s.consistent

/-- Iterated `Transaction.prototype.addSegment`: one attempt per value in the
list, collecting the result of every attempt in order. -/
def addSegmentsFrom (t : Transaction) (vs : List Value) (tr : Tracer) :
    List (Except String Segment) × Tracer :=
  match vs with
  | [] => ([], tr)
  | v :: rest =>
    let r := t.addSegment v tr
    let rs := addSegmentsFrom t rest r.2
    (r.1 :: rs.1, rs.2)

/-- Iterated `Segment.prototype.addCall`: one attempt per value in the list,
collecting the result of every attempt in order. -/
def addCallsFrom (s : Segment) (vs : List Value) (tr : Tracer) :
    List (Except String Call) × Tracer :=
  match vs with
  | [] => ([], tr)
  | v :: rest =>
    let r := s.addCall v tr
    let rs := addCallsFrom s rest r.2
    (r.1 :: rs.1, rs.2)

/-- The ids of the successfully created segments, in creation order. -/
def okSegIds (rs : List (Except String Segment)) : List Nat :=
  rs.filterMap (fun r => match r with | .ok s => some s.id | .error _ => none)

/-- The ids of the successfully created calls, in creation order. -/
def okCallIds (rs : List (Except String Call)) : List Nat :=
  rs.filterMap (fun r => match r with | .ok c => some c.id | .error _ => none)

/-- A function value is always truthy. -/
theorem fn_not_falsy (t : Nat) : (Value.fn t).falsy = false := rfl

/-- The creation token for a `Trace`. -/
theorem plus_T : "+" ++ "Trace".take 1 = "+T" := by decide

/-- The creation token for a `Segment`. -/
theorem plus_S : "+" ++ "Segment".take 1 = "+S" := by decide

/-- The creation token for a `Call`. -/
theorem plus_C : "+" ++ "Call".take 1 = "+C" := by decide

/-- C3: on a fresh tracer, `transactionProxy` over a handler returning `42`,
invoked once, yields `42`, a call-trace log of exactly
`["->T1S1C1", "<-T1S1C1"]`, and a creation log of exactly `["+T", "+S", "+C"]`. -/
theorem c3_direct_call_scenario :
    directRun.1 = .ok (Value.num 42) ∧
    directRun.2.describer.trace = ["->T1S1C1", "<-T1S1C1"] ∧
    directRun.2.describer.creations = ["+T", "+S", "+C"] := by
  refine ⟨rfl, rfl, rfl⟩

/-- C5 counterexample: constructing `transactionProxy` on a fresh tracer does
not trigger the first call — after construction returns, no Transaction,
Segment, or Call has been created, the context was never entered, and the
handler has not run: the transaction counter is still `0` and the creation and
call-trace logs are still empty (the claim requires them to show one full
invocation).  Only the outer wrapping boundary was crossed. -/
theorem c5_construction_creates_nothing :
    (Tracer.transactionProxy agent0 env42 (Value.fn 0) tracer0).2.numTransactions = 0 ∧
    (Tracer.transactionProxy agent0 env42 (Value.fn 0) tracer0).2.describer.creations = [] ∧
    (Tracer.transactionProxy agent0 env42 (Value.fn 0) tracer0).2.describer.trace = [] ∧
    (Tracer.transactionProxy agent0 env42 (Value.fn 0) tracer0).2.describer.wrappings
      = ["->T outer", "<-T outer"] := by
  refine ⟨rfl, rfl, rfl, rfl⟩

/-- C5 amended: construction of `transactionProxy` immediately invokes only the
outer wrapping closure — it logs `"->T outer", "<-T outer"` and returns the
`T inner`-wrapped worker; the Transaction, root Segment and Call creation, the
context enter/exit, and the handler invocation are all deferred to each
invocation of the returned callable. -/
theorem c5_transactionProxy_construction_defers (agent : Agent) (env : FnEnv)
    (handler : Value) (tr : Tracer) :
    Tracer.transactionProxy agent env handler tr =
      (.ok (wrapExecution "T inner" (transactionInner agent env handler)),
       { tr with describer :=
          (tr.describer.extend [] [] ["->T outer", "<-T outer"]
            ["->T outer", "<-T outer"]) }) := by
  simp [Tracer.transactionProxy, wrapExecution, Describer.traceWrapping,
    Describer.extend, List.append_assoc]

/-- C7: each entity constructor succeeds exactly when its identity, owning
parent and value arguments are all non-falsy, and on success stores the given
fields unchanged; the `Tracer` constructor succeeds exactly when given both an
agent and a shared context, storing both with a zero transaction counter and a
fresh describer. -/
theorem c7_constructors_fail_fast :
    (∀ (id : Nat) (v : Value),
      (∃ t, Transaction.make id v = .ok t) ↔ (id ≠ 0 ∧ v.falsy = false)) ∧
    (∀ (id : Nat) (v : Value) (t : Transaction),
      Transaction.make id v = .ok t → t = ⟨id, v⟩) ∧
    (∀ (id : Nat) (p : Option Transaction) (v : Value),
      (∃ s, Segment.make id p v = .ok s) ↔ (id ≠ 0 ∧ p.isSome ∧ v.falsy = false)) ∧
    (∀ (id : Nat) (t : Transaction) (v : Value) (s : Segment),
      Segment.make id (some t) v = .ok s → s = ⟨id, t, v⟩) ∧
    (∀ (id : Nat) (p : Option Segment) (v : Value),
      (∃ c, Call.make id p v = .ok c) ↔ (id ≠ 0 ∧ p.isSome ∧ v.falsy = false)) ∧
    (∀ (id : Nat) (s : Segment) (v : Value) (c : Call),
      Call.make id (some s) v = .ok c → c = ⟨id, s, v⟩) ∧
    (∀ (a : Option Agent) (c : Option Context),
      (∃ p, Tracer.make a c = .ok p) ↔ (a.isSome ∧ c.isSome)) ∧
    (∀ (a : Agent) (c : Context),
      Tracer.make (some a) (some c) = .ok (a, ⟨0, [], [], c, Describer.empty⟩)) := by
  refine ⟨?_, ?_, ?_, ?_, ?_, ?_, ?_, ?_⟩
  · intro id v
    constructor
    · rintro ⟨t, ht⟩
      by_cases h0 : id = 0
      · simp [Transaction.make, h0] at ht
      · by_cases hv : v.falsy = true
        · simp [Transaction.make, h0, hv] at ht
        · exact ⟨h0, by simpa using hv⟩
    · rintro ⟨h0, hv⟩
      exact ⟨⟨id, v⟩, by simp [Transaction.make, h0, hv]⟩
  · intro id v t ht
    by_cases h0 : id = 0
    · simp [Transaction.make, h0] at ht
    · by_cases hv : v.falsy = true
      · simp [Transaction.make, h0, hv] at ht
      · simp [Transaction.make, h0, hv] at ht
        exact ht.symm
  · intro id p v
    constructor
    · rintro ⟨s, hs⟩
      by_cases h0 : id = 0
      · simp [Segment.make, h0] at hs
      · match p with
        | none => simp [Segment.make, h0] at hs
        | some t =>
          by_cases hv : v.falsy = true
          · simp [Segment.make, h0, hv] at hs
          · exact ⟨h0, by simp, by simpa using hv⟩
    · rintro ⟨h0, hp, hv⟩
      match p with
      | some t => exact ⟨⟨id, t, v⟩, by simp [Segment.make, h0, hv]⟩
  · intro id t v s hs
    by_cases h0 : id = 0
    · simp [Segment.make, h0] at hs
    · by_cases hv : v.falsy = true
      · simp [Segment.make, h0, hv] at hs
      · simp [Segment.make, h0, hv] at hs
        exact hs.symm
  · intro id p v
    constructor
    · rintro ⟨c, hc⟩
      by_cases h0 : id = 0
      · simp [Call.make, h0] at hc
      · match p with
        | none => simp [Call.make, h0] at hc
        | some s =>
          by_cases hv : v.falsy = true
          · simp [Call.make, h0, hv] at hc
          · exact ⟨h0, by simp, by simpa using hv⟩
    · rintro ⟨h0, hp, hv⟩
      match p with
      | some s => exact ⟨⟨id, s, v⟩, by simp [Call.make, h0, hv]⟩
  · intro id s v c hc
    by_cases h0 : id = 0
    · simp [Call.make, h0] at hc
    · by_cases hv : v.falsy = true
      · simp [Call.make, h0, hv] at hc
      · simp [Call.make, h0, hv] at hc
        exact hc.symm
  · intro a c
    constructor
    · rintro ⟨p, hp⟩
      match a with
      | none => simp [Tracer.make] at hp
      | some a0 =>
        match c with
        | none => simp [Tracer.make] at hp
        | some c0 => exact ⟨by simp, by simp⟩
    · rintro ⟨ha, hc⟩
      match a, c with
      | some a0, some c0 => exact ⟨(a0, ⟨0, [], [], c0, Describer.empty⟩), rfl⟩
  · intro a c
    rfl

/-- C7 witness: concrete instantiations of the fail-fast characterisation. -/
theorem c7_witness :
    Tracer.make (some agent0) (some ⟨[]⟩)
      = .ok (agent0, ⟨0, [], [], ⟨[]⟩, Describer.empty⟩) :=
  c7_constructors_fail_fast.2.2.2.2.2.2.2 agent0 ⟨[]⟩

/-- C9: `addTransaction` is not atomic on failure — with a falsy value it
throws, but only after advancing `numTransactions` and logging `"+T"`; a
following successful `addTransaction` is assigned an id one past the failed
attempt (two past the counter before the failure). -/
theorem c9_addTransaction_not_atomic (tr : Tracer) (v : Value)
    (hv : v.falsy = true) :
    Tracer.addTransaction v tr =
      (.error "Transactions must be associated with a value.",
       { tr with numTransactions := tr.numTransactions + 1,
                 describer := tr.describer.extend [] ["+T"] [] ["+T"] }) ∧
    ∀ w : Value, w.falsy = false →
      (Tracer.addTransaction w
        { tr with numTransactions := tr.numTransactions + 1,
                  describer := tr.describer.extend [] ["+T"] [] ["+T"] }).1
        = .ok ⟨tr.numTransactions + 2, w⟩ := by
  have htake : "+" ++ "Trace".take 1 = "+T" := by decide
  constructor
  · simp [Tracer.addTransaction, Transaction.make, hv, Describer.traceCreation,
      Describer.extend, htake]
  · intro w hw
    simp [Tracer.addTransaction, Transaction.make, hw]

/-- C9 witness: the failed and the following successful creation at a concrete
input. -/
theorem c9_witness :
    Value.undef.falsy = true ∧
    (Tracer.addTransaction Value.undef tracer0 =
      (.error "Transactions must be associated with a value.",
       { tracer0 with numTransactions := 1,
                      describer := tracer0.describer.extend [] ["+T"] [] ["+T"] }) ∧
     ∀ w : Value, w.falsy = false →
      (Tracer.addTransaction w
        { tracer0 with numTransactions := 1,
                       describer := tracer0.describer.extend [] ["+T"] [] ["+T"] }).1
        = .ok ⟨2, w⟩) :=
  ⟨by decide, c9_addTransaction_not_atomic tracer0 Value.undef (by decide)⟩

/-- C2: `segmentProxy` construction returns the `S inner`-wrapped worker after
crossing only the outer wrapping boundary; invoking that worker with no active
context state returns exactly the handler result with no entity created and
no enter/exit (pure passthrough); invoking it with an active state `s` creates
exactly one `Segment` under the transaction of `s` reusing the segment value
of `s`,
exactly one `Call` wrapping the handler under that new segment, and enters and
exits exactly once around the handler, returning its result. -/
theorem c2_segmentProxy_dispatch (env : FnEnv) (t : Nat) (tr : Tracer) :
    Tracer.segmentProxy env (Value.fn t) tr =
      (.ok (wrapExecution "S inner" (segmentInner env (Value.fn t))),
       { tr with describer :=
          (tr.describer.extend [] [] ["->S outer", "<-S outer"]
            ["->S outer", "<-S outer"]) }) ∧
    (∀ (thisArg : Value) (args : List Value) (tr2 : Tracer) (v : Value),
      tr2.context.state = none → env t thisArg args = .ok v →
      wrapExecution "S inner" (segmentInner env (Value.fn t)) thisArg args tr2 =
        (.ok v,
         { tr2 with describer :=
            (tr2.describer.extend [] [] ["->S inner", "<-S inner"]
              ["->S inner", "<-S inner"]) })) ∧
    (∀ (thisArg : Value) (args : List Value) (tr2 : Tracer) (s : State) (v : Value),
      tr2.context.state = some s → s.segment.value.falsy = false →
      env t thisArg args = .ok v →
      let n := getCount tr2.segCount s.transaction.id + 1
      let seg : Segment := ⟨n, s.transaction, s.segment.value⟩
      let m := getCount tr2.callCount (s.transaction.id, n) + 1
      let call : Call := ⟨m, seg, Value.fn t⟩
      (Tracer.addSegment s.transaction s.segment.value tr2).1 = .ok seg ∧
      (Tracer.addCall seg (Value.fn t)
        (Tracer.addSegment s.transaction s.segment.value tr2).2).1 = .ok call ∧
      wrapExecution "S inner" (segmentInner env (Value.fn t)) thisArg args tr2 =
        (.ok v,
         { tr2 with
            segCount := setCount tr2.segCount s.transaction.id n,
            callCount := setCount tr2.callCount (s.transaction.id, n) m,
            describer :=
              (tr2.describer.extend
                ["->" ++ call.format, "<-" ++ call.format] ["+S", "+C"]
                ["->S inner", "<-S inner"]
                ["->S inner", "+S", "+C", "->" ++ call.format, "<-" ++ call.format,
                  "<-S inner"]) })) := by
  refine ⟨?_, ?_, ?_⟩
  · simp [Tracer.segmentProxy, wrapExecution, Describer.traceWrapping,
      Describer.extend, List.append_assoc]
  · intro thisArg args tr2 v hnone henv
    simp [wrapExecution, segmentInner, hnone, applyFn, henv,
      Describer.traceWrapping, Describer.extend, List.append_assoc]
  · intro thisArg args tr2 s v hs hval henv
    refine ⟨?_, ?_, ?_⟩
    · simp [Tracer.addSegment, Transaction.addSegment, Segment.make, hval,
        Describer.traceCreation, plus_S]
    · simp [Tracer.addSegment, Transaction.addSegment, Tracer.addCall,
        Segment.addCall, Segment.make, Call.make, hval, fn_not_falsy,
        Describer.traceCreation, plus_S, plus_C]
    · simp [wrapExecution, segmentInner, hs, Tracer.addSegment,
        Transaction.addSegment, Tracer.addCall, Segment.addCall, Segment.make,
        Call.make, hval, fn_not_falsy, Tracer.enter, Tracer.exit, Context.enter,
        Context.exit, Describer.traceCall, Describer.traceCreation,
        Describer.traceWrapping, Describer.extend, Call.format, applyFn, henv,
        plus_S, plus_C, List.append_assoc]

/-- C2 witness: the passthrough and tracking branches at concrete inputs. -/
theorem c2_witness :
    tracer1.context.state = some state1 ∧
    state1.segment.value.falsy = false ∧
    env42 0 Value.undef [] = .ok (Value.num 42) ∧
    (let n := getCount tracer1.segCount state1.transaction.id + 1
     let seg : Segment := ⟨n, state1.transaction, state1.segment.value⟩
     let m := getCount tracer1.callCount (state1.transaction.id, n) + 1
     let call : Call := ⟨m, seg, Value.fn 0⟩
     (Tracer.addSegment state1.transaction state1.segment.value tracer1).1 = .ok seg ∧
     (Tracer.addCall seg (Value.fn 0)
       (Tracer.addSegment state1.transaction state1.segment.value tracer1).2).1 = .ok call ∧
     wrapExecution "S inner" (segmentInner env42 (Value.fn 0)) Value.undef [] tracer1 =
       (.ok (Value.num 42),
        { tracer1 with
           segCount := setCount tracer1.segCount state1.transaction.id n,
           callCount := setCount tracer1.callCount (state1.transaction.id, n) m,
           describer :=
             (tracer1.describer.extend
               ["->" ++ call.format, "<-" ++ call.format] ["+S", "+C"]
               ["->S inner", "<-S inner"]
               ["->S inner", "+S", "+C", "->" ++ call.format, "<-" ++ call.format,
                 "<-S inner"]) })) :=
  ⟨rfl, rfl, rfl,
    (c2_segmentProxy_dispatch env42 0 tracer1).2.2 Value.undef [] tracer1 state1
      (Value.num 42) rfl rfl rfl⟩

/-- C10: `segmentProxy` decides between passthrough and tracking from the
context state read when the returned callable is invoked, not when the proxy is
constructed: construction returns the same worker whether or not a state is
active at construction time; that worker, invoked while a state `s` is active,
creates a segment and a call and enters/exits once, and invoked while the
context state is none it is pure passthrough. -/
theorem c10_segmentProxy_reads_context_at_invocation (env : FnEnv) (t : Nat) :
    (∀ tr : Tracer, tr.context.state = none →
      (Tracer.segmentProxy env (Value.fn t) tr).1 =
        .ok (wrapExecution "S inner" (segmentInner env (Value.fn t)))) ∧
    (∀ (tr : Tracer) (s : State), tr.context.state = some s →
      (Tracer.segmentProxy env (Value.fn t) tr).1 =
        .ok (wrapExecution "S inner" (segmentInner env (Value.fn t)))) ∧
    (∀ (thisArg : Value) (args : List Value) (tr2 : Tracer) (s : State) (v : Value),
      tr2.context.state = some s → s.segment.value.falsy = false →
      env t thisArg args = .ok v →
      let res := wrapExecution "S inner" (segmentInner env (Value.fn t)) thisArg args tr2
      res.1 = .ok v ∧
      res.2.describer.creations = tr2.describer.creations ++ ["+S", "+C"] ∧
      res.2.describer.trace = tr2.describer.trace ++
        ["->" ++ Call.format ⟨getCount tr2.callCount
            (s.transaction.id, getCount tr2.segCount s.transaction.id + 1) + 1,
          ⟨getCount tr2.segCount s.transaction.id + 1, s.transaction,
            s.segment.value⟩, Value.fn t⟩,
         "<-" ++ Call.format ⟨getCount tr2.callCount
            (s.transaction.id, getCount tr2.segCount s.transaction.id + 1) + 1,
          ⟨getCount tr2.segCount s.transaction.id + 1, s.transaction,
            s.segment.value⟩, Value.fn t⟩] ∧
      res.2.context = tr2.context) ∧
    (∀ (thisArg : Value) (args : List Value) (tr2 : Tracer) (v : Value),
      tr2.context.state = none → env t thisArg args = .ok v →
      let res := wrapExecution "S inner" (segmentInner env (Value.fn t)) thisArg args tr2
      res.1 = .ok v ∧
      res.2.describer.creations = tr2.describer.creations ∧
      res.2.describer.trace = tr2.describer.trace ∧
      res.2.context = tr2.context ∧
      res.2.segCount = tr2.segCount ∧
      res.2.callCount = tr2.callCount) := by
  refine ⟨?_, ?_, ?_, ?_⟩
  · intro tr _
    simp [Tracer.segmentProxy, wrapExecution, Describer.traceWrapping]
  · intro tr s _
    simp [Tracer.segmentProxy, wrapExecution, Describer.traceWrapping]
  · intro thisArg args tr2 s v hs hval henv
    simp [wrapExecution, segmentInner, hs, Tracer.addSegment,
      Transaction.addSegment, Tracer.addCall, Segment.addCall, Segment.make,
      Call.make, hval, fn_not_falsy, Tracer.enter, Tracer.exit, Context.enter,
      Context.exit, Describer.traceCall, Describer.traceCreation,
      Describer.traceWrapping, Call.format, applyFn, henv, plus_S, plus_C,
      List.append_assoc]
  · intro thisArg args tr2 v hnone henv
    simp [wrapExecution, segmentInner, hnone, applyFn, henv,
      Describer.traceWrapping]

/-- C10 witness: the cross cases at concrete inputs — a worker behaves
according to the invocation-time context. -/
theorem c10_witness :
    tracer0.context.state = none ∧
    tracer1.context.state = some state1 ∧
    ((Tracer.segmentProxy env42 (Value.fn 0) tracer0).1 =
      .ok (wrapExecution "S inner" (segmentInner env42 (Value.fn 0)))) ∧
    (let res := wrapExecution "S inner" (segmentInner env42 (Value.fn 0))
        Value.undef [] tracer1
     res.1 = .ok (Value.num 42) ∧
     res.2.describer.creations = tracer1.describer.creations ++ ["+S", "+C"]) :=
  ⟨rfl, rfl,
    (c10_segmentProxy_reads_context_at_invocation env42 0).1 tracer0 rfl,
    ((c10_segmentProxy_reads_context_at_invocation env42 0).2.2.1 Value.undef []
        tracer1 state1 (Value.num 42) rfl rfl rfl).1,
    ((c10_segmentProxy_reads_context_at_invocation env42 0).2.2.1 Value.undef []
        tracer1 state1 (Value.num 42) rfl rfl rfl).2.1⟩

/-- C1: with a state `s` active (and its ancestor triple consistent),
`callbackProxy` creates exactly one `Call` under the captured segment at
construction time (logging `"+C"` inside the `C outer` wrapping boundary), and
every later invocation of the returned worker — whatever the context holds then
— builds a fresh state from the transaction, segment and call captured at
construction, enters it before the handler and exits after, returning the
handler result; both trace tokens reference the captured transaction and
segment ids. -/
theorem c1_callbackProxy_captures_state (env : FnEnv) (t : Nat) (tr : Tracer)
    (s : State) (hs : tr.context.state = some s) (hcon : s.consistent) :
    let n := getCount tr.callCount (s.segment.transaction.id, s.segment.id) + 1
    let call : Call := ⟨n, s.segment, Value.fn t⟩
    Tracer.callbackProxy env (Value.fn t) tr =
      (.ok (wrapExecution "C inner" (callbackInner env (Value.fn t) s call)),
       { tr with
          callCount := setCount tr.callCount (s.segment.transaction.id, s.segment.id) n,
          describer :=
            (tr.describer.extend [] ["+C"] ["->C outer", "<-C outer"]
              ["->C outer", "+C", "<-C outer"]) }) ∧
    (∀ (thisArg : Value) (args : List Value) (tr2 : Tracer) (v : Value),
      env t thisArg args = .ok v →
      let tok := "T" ++ toString s.transaction.id ++ "S" ++ toString s.segment.id
        ++ "C" ++ toString n
      wrapExecution "C inner" (callbackInner env (Value.fn t) s call) thisArg args tr2 =
        (.ok v,
         { tr2 with describer :=
            (tr2.describer.extend ["->" ++ tok, "<-" ++ tok] []
              ["->C inner", "<-C inner"]
              ["->C inner", "->" ++ tok, "<-" ++ tok, "<-C inner"]) })) := by
  obtain ⟨hcs, hst⟩ := hcon
  constructor
  · simp [Tracer.callbackProxy, hs, wrapExecution, Tracer.addCall,
      Segment.addCall, Call.make, fn_not_falsy, hcs, Describer.traceCreation,
      Describer.traceWrapping, Describer.extend, plus_C, List.append_assoc]
  · intro thisArg args tr2 v henv
    simp [wrapExecution, callbackInner, Tracer.enter, Tracer.exit,
      Context.enter, Context.exit, Describer.traceCall, Describer.traceWrapping,
      Describer.extend, Call.format, hst, applyFn, henv, List.append_assoc]

/-- C1 witness: construction and a later invocation (under a tracer whose
context no longer holds the captured state) at concrete inputs. -/
theorem c1_witness :
    tracer1.context.state = some state1 ∧
    state1.consistent ∧
    (let n := getCount tracer1.callCount
        (state1.segment.transaction.id, state1.segment.id) + 1
     let call : Call := ⟨n, state1.segment, Value.fn 0⟩
     Tracer.callbackProxy env42 (Value.fn 0) tracer1 =
      (.ok (wrapExecution "C inner" (callbackInner env42 (Value.fn 0) state1 call)),
       { tracer1 with
          callCount := setCount tracer1.callCount
            (state1.segment.transaction.id, state1.segment.id) n,
          describer :=
            (tracer1.describer.extend [] ["+C"] ["->C outer", "<-C outer"]
              ["->C outer", "+C", "<-C outer"]) }) ∧
     (∀ (thisArg : Value) (args : List Value) (tr2 : Tracer) (v : Value),
      env42 0 thisArg args = .ok v →
      let tok := "T" ++ toString state1.transaction.id ++ "S"
        ++ toString state1.segment.id ++ "C" ++ toString n
      wrapExecution "C inner" (callbackInner env42 (Value.fn 0) state1 call)
          thisArg args tr2 =
        (.ok v,
         { tr2 with describer :=
            (tr2.describer.extend ["->" ++ tok, "<-" ++ tok] []
              ["->C inner", "<-C inner"]
              ["->C inner", "->" ++ tok, "<-" ++ tok, "<-C inner"]) }))) :=
  ⟨rfl, by decide, c1_callbackProxy_captures_state env42 0 tracer1 state1 rfl (by decide)⟩

/-- Construction of `transactionProxy` always yields the `T inner`-wrapped
worker after crossing the outer wrapping boundary. -/
theorem transactionProxy_build (agent : Agent) (env : FnEnv) (handler : Value)
    (tr : Tracer) :
    Tracer.transactionProxy agent env handler tr =
      (.ok (wrapExecution "T inner" (transactionInner agent env handler)),
       { tr with describer :=
          (tr.describer.extend [] [] ["->T outer", "<-T outer"]
            ["->T outer", "<-T outer"]) }) := by
  simp [Tracer.transactionProxy, wrapExecution, Describer.traceWrapping,
    Describer.extend, List.append_assoc]

/-- Construction of `segmentProxy` always yields the `S inner`-wrapped worker
after crossing the outer wrapping boundary. -/
theorem segmentProxy_build (env : FnEnv) (handler : Value) (tr : Tracer) :
    Tracer.segmentProxy env handler tr =
      (.ok (wrapExecution "S inner" (segmentInner env handler)),
       { tr with describer :=
          (tr.describer.extend [] [] ["->S outer", "<-S outer"]
            ["->S outer", "<-S outer"]) }) := by
  simp [Tracer.segmentProxy, wrapExecution, Describer.traceWrapping,
    Describer.extend, List.append_assoc]

/-- Construction of `callbackProxy` under an active consistent state: one call
is created under the `call.segment` of the captured state (which is the captured
segment), and the `C inner`-wrapped worker carrying the captured state and that
call is returned. -/
theorem callbackProxy_build (env : FnEnv) (handler : Value) (tr : Tracer)
    (s : State) (hs : tr.context.state = some s)
    (hcs : s.call.segment = s.segment) (hh : handler.falsy = false) :
    Tracer.callbackProxy env handler tr =
      (.ok (wrapExecution "C inner" (callbackInner env handler s
        ⟨getCount tr.callCount (s.segment.transaction.id, s.segment.id) + 1,
          s.segment, handler⟩)),
       { tr with
          callCount := setCount tr.callCount
            (s.segment.transaction.id, s.segment.id)
            (getCount tr.callCount (s.segment.transaction.id, s.segment.id) + 1),
          describer :=
            (tr.describer.extend [] ["+C"] ["->C outer", "<-C outer"]
              ["->C outer", "+C", "<-C outer"]) }) := by
  simp [Tracer.callbackProxy, hs, wrapExecution, Tracer.addCall,
    Segment.addCall, Call.make, hh, hcs, Describer.traceCreation,
    Describer.traceWrapping, Describer.extend, plus_C, List.append_assoc]

/-- C4: if the wrapped handler throws during a proxy-wrapped invocation that
has already entered a state, the matching exit never runs — the call-trace log
gains only the enter token and the entered state is left on the context stack —
and the thrown error propagates to the caller of the proxy unchanged in identity,
for each of `transactionProxy`, `segmentProxy` and `callbackProxy`. -/
theorem c4_handler_fault_skips_exit (env : FnEnv) (t : Nat) (e : String) :
    (∀ (agent : Agent) (tr trc : Tracer) (k : Callable Value) (thisArg : Value)
        (args : List Value) (tr2 : Tracer),
      agent.createTransaction.falsy = false →
      (agent.getTraceRoot agent.createTransaction).falsy = false →
      env t thisArg args = .error e →
      Tracer.transactionProxy agent env (Value.fn t) tr = (.ok k, trc) →
      let tx : Transaction := ⟨tr2.numTransactions + 1, agent.createTransaction⟩
      let n := getCount tr2.segCount tx.id + 1
      let seg : Segment := ⟨n, tx, agent.getTraceRoot agent.createTransaction⟩
      let m := getCount tr2.callCount (tx.id, n) + 1
      let call : Call := ⟨m, seg, Value.fn t⟩
      (k thisArg args tr2).1 = .error e ∧
      (k thisArg args tr2).2.describer.trace =
        tr2.describer.trace ++ ["->" ++ call.format] ∧
      (k thisArg args tr2).2.context.stack =
        ⟨tx, seg, call, true⟩ :: tr2.context.stack) ∧
    (∀ (tr trc : Tracer) (k : Callable Value) (thisArg : Value)
        (args : List Value) (tr2 : Tracer) (s : State),
      tr2.context.state = some s → s.segment.value.falsy = false →
      env t thisArg args = .error e →
      Tracer.segmentProxy env (Value.fn t) tr = (.ok k, trc) →
      let n := getCount tr2.segCount s.transaction.id + 1
      let seg : Segment := ⟨n, s.transaction, s.segment.value⟩
      let m := getCount tr2.callCount (s.transaction.id, n) + 1
      let call : Call := ⟨m, seg, Value.fn t⟩
      (k thisArg args tr2).1 = .error e ∧
      (k thisArg args tr2).2.describer.trace =
        tr2.describer.trace ++ ["->" ++ call.format] ∧
      (k thisArg args tr2).2.context.stack =
        ⟨s.transaction, seg, call, true⟩ :: tr2.context.stack) ∧
    (∀ (tr trc : Tracer) (k : Callable Value) (thisArg : Value)
        (args : List Value) (tr2 : Tracer) (s : State),
      tr.context.state = some s → s.consistent →
      env t thisArg args = .error e →
      Tracer.callbackProxy env (Value.fn t) tr = (.ok k, trc) →
      let n := getCount tr.callCount (s.segment.transaction.id, s.segment.id) + 1
      let call : Call := ⟨n, s.segment, Value.fn t⟩
      (k thisArg args tr2).1 = .error e ∧
      (k thisArg args tr2).2.describer.trace =
        tr2.describer.trace ++ ["->" ++ call.format] ∧
      (k thisArg args tr2).2.context.stack =
        ⟨s.transaction, s.segment, call, true⟩ :: tr2.context.stack) := by
  refine ⟨?_, ?_, ?_⟩
  · intro agent tr trc k thisArg args tr2 hval hroot henv hk
    rw [transactionProxy_build] at hk
    injection hk with hk1 hk2
    injection hk1 with hk1
    subst hk1
    refine ⟨?_, ?_, ?_⟩ <;>
      simp [wrapExecution, transactionInner, Tracer.addTransaction,
        Transaction.make, hval, Tracer.addSegment, Transaction.addSegment,
        Segment.make, hroot, Tracer.addCall, Segment.addCall, Call.make,
        fn_not_falsy, Tracer.enter, Context.enter, Describer.traceCall,
        Describer.traceCreation, Describer.traceWrapping, Call.format,
        applyFn, henv, List.append_assoc]
  · intro tr trc k thisArg args tr2 s hs hval henv hk
    rw [segmentProxy_build] at hk
    injection hk with hk1 hk2
    injection hk1 with hk1
    subst hk1
    refine ⟨?_, ?_, ?_⟩ <;>
      simp [wrapExecution, segmentInner, hs, Tracer.addSegment,
        Transaction.addSegment, Segment.make, hval, Tracer.addCall,
        Segment.addCall, Call.make, fn_not_falsy, Tracer.enter, Context.enter,
        Describer.traceCall, Describer.traceCreation, Describer.traceWrapping,
        Call.format, applyFn, henv, List.append_assoc]
  · intro tr trc k thisArg args tr2 s hs hcon henv hk
    obtain ⟨hcs, hst⟩ := hcon
    rw [callbackProxy_build env (Value.fn t) tr s hs hcs (fn_not_falsy t)] at hk
    injection hk with hk1 hk2
    injection hk1 with hk1
    subst hk1
    refine ⟨?_, ?_, ?_⟩ <;>
      simp [wrapExecution, callbackInner, Tracer.enter, Context.enter,
        Describer.traceCall, Describer.traceWrapping, Call.format, hst,
        applyFn, henv, List.append_assoc]

/-- C4 witness: a throwing handler under each proxy at concrete inputs. -/
theorem c4_witness :
    ((wrapExecution "T inner" (transactionInner agent0 envBoom (Value.fn 0)))
        Value.undef [] tracer0).1 = .error "boom" ∧
    ((wrapExecution "S inner" (segmentInner envBoom (Value.fn 0)))
        Value.undef [] tracer1).2.context.stack =
      ⟨state1.transaction, ⟨1, state1.transaction, state1.segment.value⟩,
        ⟨1, ⟨1, state1.transaction, state1.segment.value⟩, Value.fn 0⟩, true⟩
        :: tracer1.context.stack ∧
    ((wrapExecution "C inner" (callbackInner envBoom (Value.fn 0) state1
        ⟨1, state1.segment, Value.fn 0⟩)) Value.undef [] tracer0).2.describer.trace =
      tracer0.describer.trace ++ ["->T1S1C1"] := by
  refine ⟨?_, ?_, ?_⟩
  · exact ((c4_handler_fault_skips_exit envBoom 0 "boom").1 agent0 tracer0 _ _
      Value.undef [] tracer0 rfl rfl rfl rfl).1
  · exact (((c4_handler_fault_skips_exit envBoom 0 "boom").2.1 tracer1 _ _
      Value.undef [] tracer1 state1 rfl rfl rfl rfl).2.2)
  · exact (((c4_handler_fault_skips_exit envBoom 0 "boom").2.2 tracer1 _ _
      Value.undef [] tracer0 state1 rfl (by decide) rfl rfl).2.1)

/-- C8: the states the tracer passes to `enter` have consistent ancestor
triples — the call of the state was created under the segment of the state,
which in turn belongs to the transaction of the state.  Formally: whatever the
handler and whatever the outcome (including a handler throw, which leaves the
entered state on the stack), invoking the worker returned by any of the three
proxies preserves all-states-consistent on the context stack; for
`callbackProxy` the state captured at construction is assumed consistent. -/
theorem c8_entered_states_consistent (env : FnEnv) (handler : Value) :
    (∀ (agent : Agent) (tr trc tr2 : Tracer) (k : Callable Value)
        (thisArg : Value) (args : List Value),
      Tracer.transactionProxy agent env handler tr = (.ok k, trc) →
      tr2.ctxConsistent → (k thisArg args tr2).2.ctxConsistent) ∧
    (∀ (tr trc tr2 : Tracer) (k : Callable Value) (thisArg : Value)
        (args : List Value),
      Tracer.segmentProxy env handler tr = (.ok k, trc) →
      tr2.ctxConsistent → (k thisArg args tr2).2.ctxConsistent) ∧
    (∀ (tr trc tr2 : Tracer) (k : Callable Value) (thisArg : Value)
        (args : List Value) (s : State),
      tr.context.state = some s → s.consistent →
      Tracer.callbackProxy env handler tr = (.ok k, trc) →
      tr2.ctxConsistent → (k thisArg args tr2).2.ctxConsistent) := by
  refine ⟨?_, ?_, ?_⟩
  · intro agent tr trc tr2 k thisArg args hk hcc
    rw [transactionProxy_build] at hk
    injection hk with hk1 hk2
    injection hk1 with hk1
    subst hk1
    unfold Tracer.ctxConsistent at hcc ⊢
    by_cases hval : agent.createTransaction.falsy = true
    · simpa [wrapExecution, transactionInner, Tracer.addTransaction,
        Transaction.make, hval] using hcc
    · rw [Bool.not_eq_true] at hval
      by_cases hroot : (agent.getTraceRoot agent.createTransaction).falsy = true
      · simpa [wrapExecution, transactionInner, Tracer.addTransaction,
          Transaction.make, hval, Tracer.addSegment, Transaction.addSegment,
          Segment.make, hroot] using hcc
      · rw [Bool.not_eq_true] at hroot
        by_cases hh : handler.falsy = true
        · simpa [wrapExecution, transactionInner, Tracer.addTransaction,
            Transaction.make, hval, Tracer.addSegment, Transaction.addSegment,
            Segment.make, hroot, Tracer.addCall, Segment.addCall, Call.make,
            hh] using hcc
        · rw [Bool.not_eq_true] at hh
          cases happ : applyFn env handler thisArg args with
          | error e =>
            simp [wrapExecution, transactionInner, Tracer.addTransaction,
              Transaction.make, hval, Tracer.addSegment, Transaction.addSegment,
              Segment.make, hroot, Tracer.addCall, Segment.addCall, Call.make,
              hh, Tracer.enter, Context.enter, happ]
            exact ⟨⟨rfl, rfl⟩, hcc⟩
          | ok v =>
            simpa [wrapExecution, transactionInner, Tracer.addTransaction,
              Transaction.make, hval, Tracer.addSegment, Transaction.addSegment,
              Segment.make, hroot, Tracer.addCall, Segment.addCall, Call.make,
              hh, Tracer.enter, Tracer.exit, Context.enter, Context.exit,
              happ] using hcc
  · intro tr trc tr2 k thisArg args hk hcc
    rw [segmentProxy_build] at hk
    injection hk with hk1 hk2
    injection hk1 with hk1
    subst hk1
    unfold Tracer.ctxConsistent at hcc ⊢
    cases hst : tr2.context.state with
    | none =>
      cases happ : applyFn env handler thisArg args with
      | error e => simpa [wrapExecution, segmentInner, hst, happ] using hcc
      | ok v => simpa [wrapExecution, segmentInner, hst, happ] using hcc
    | some s =>
      by_cases hval : s.segment.value.falsy = true
      · simpa [wrapExecution, segmentInner, hst, Tracer.addSegment,
          Transaction.addSegment, Segment.make, hval] using hcc
      · rw [Bool.not_eq_true] at hval
        by_cases hh : handler.falsy = true
        · simpa [wrapExecution, segmentInner, hst, Tracer.addSegment,
            Transaction.addSegment, Segment.make, hval, Tracer.addCall,
            Segment.addCall, Call.make, hh] using hcc
        · rw [Bool.not_eq_true] at hh
          cases happ : applyFn env handler thisArg args with
          | error e =>
            simp [wrapExecution, segmentInner, hst, Tracer.addSegment,
              Transaction.addSegment, Segment.make, hval, Tracer.addCall,
              Segment.addCall, Call.make, hh, Tracer.enter, Context.enter, happ]
            exact ⟨⟨rfl, rfl⟩, hcc⟩
          | ok v =>
            simpa [wrapExecution, segmentInner, hst, Tracer.addSegment,
              Transaction.addSegment, Segment.make, hval, Tracer.addCall,
              Segment.addCall, Call.make, hh, Tracer.enter, Tracer.exit,
              Context.enter, Context.exit, happ] using hcc
  · intro tr trc tr2 k thisArg args s hs hcon hk hcc
    obtain ⟨hcs, hst⟩ := hcon
    by_cases hh : handler.falsy = true
    · rw [Tracer.callbackProxy] at hk
      simp [hs, wrapExecution, Tracer.addCall, Segment.addCall, Call.make,
        hh] at hk
    · rw [Bool.not_eq_true] at hh
      rw [callbackProxy_build env handler tr s hs hcs hh] at hk
      injection hk with hk1 hk2
      injection hk1 with hk1
      subst hk1
      unfold Tracer.ctxConsistent at hcc ⊢
      cases happ : applyFn env handler thisArg args with
      | error e =>
        simp [wrapExecution, callbackInner, Tracer.enter, Context.enter, happ]
        exact ⟨⟨rfl, hst⟩, hcc⟩
      | ok v =>
        simpa [wrapExecution, callbackInner, Tracer.enter, Tracer.exit,
          Context.enter, Context.exit, happ] using hcc

/-- C8 witness: concrete invocations of the worker of each proxy preserve the
all-consistent context stack. -/
theorem c8_witness :
    ((wrapExecution "T inner" (transactionInner agent0 env42 (Value.fn 0)))
        Value.undef [] tracer0).2.ctxConsistent ∧
    ((wrapExecution "S inner" (segmentInner env42 (Value.fn 0)))
        Value.undef [] tracer1).2.ctxConsistent ∧
    ((wrapExecution "C inner" (callbackInner env42 (Value.fn 0) state1
        ⟨1, state1.segment, Value.fn 0⟩)) Value.undef [] tracer0).2.ctxConsistent := by
  have hstack1 : tracer1.ctxConsistent := by
    intro x hx
    simp [tracer1] at hx
    subst hx
    exact ⟨rfl, rfl⟩
  have hstack0 : tracer0.ctxConsistent := by
    intro x hx
    simp [tracer0] at hx
  refine ⟨?_, ?_, ?_⟩
  · exact (c8_entered_states_consistent env42 (Value.fn 0)).1 agent0 tracer0 _
      tracer0 _ Value.undef [] rfl hstack0
  · exact (c8_entered_states_consistent env42 (Value.fn 0)).2.1 tracer1 _
      tracer1 _ Value.undef [] rfl hstack1
  · exact (c8_entered_states_consistent env42 (Value.fn 0)).2.2 tracer1 _
      tracer0 _ Value.undef [] state1 rfl (by decide) rfl hstack0

/-- Writing a counter and reading it back at the same key. -/
theorem getCount_setCount {kt : Type} [DecidableEq kt] (t : List (kt × Nat))
    (k : kt) (n : Nat) : getCount (setCount t k n) k = n := by
  induction t with
  | nil => simp [getCount, setCount]
  | cons p rest ih =>
    by_cases hp : p.1 = k
    · simp [getCount, setCount, hp]
    · simp [getCount, setCount, hp, ih]

/-- Iterated `addSegment` starting from counter value `c` with all values
truthy: the k-th attempt succeeds with id `c + k`. -/
theorem addSegmentsFrom_run (t : Transaction) (vs : List Value) :
    ∀ (tr : Tracer) (c : Nat), getCount tr.segCount t.id = c →
      (∀ v ∈ vs, v.falsy = false) →
      (addSegmentsFrom t vs tr).1 =
        (List.enumFrom c vs).map (fun p => .ok ⟨p.1 + 1, t, p.2⟩) := by
  induction vs with
  | nil => intro tr c _ _; simp [addSegmentsFrom]
  | cons v rest ih =>
    intro tr c hc hv
    have hvh : v.falsy = false := hv v (by simp)
    have hvr : ∀ w ∈ rest, w.falsy = false := fun w hw => hv w (by simp [hw])
    have h1 : t.addSegment v tr =
        (.ok ⟨c + 1, t, v⟩,
         { tr with segCount := setCount tr.segCount t.id (c + 1) }) := by
      simp [Transaction.addSegment, Segment.make, hc, hvh]
    have h2 : getCount
        ({ tr with segCount := setCount tr.segCount t.id (c + 1) } : Tracer).segCount
        t.id = c + 1 := by
      simp [getCount_setCount]
    simp only [addSegmentsFrom, h1, List.enumFrom, List.map_cons, List.cons.injEq]
    exact ⟨trivial, ih _ (c + 1) h2 hvr⟩

/-- Iterated `addCall` starting from counter value `c` with all values truthy:
the k-th attempt succeeds with id `c + k`. -/
theorem addCallsFrom_run (s : Segment) (vs : List Value) :
    ∀ (tr : Tracer) (c : Nat), getCount tr.callCount (s.transaction.id, s.id) = c →
      (∀ v ∈ vs, v.falsy = false) →
      (addCallsFrom s vs tr).1 =
        (List.enumFrom c vs).map (fun p => .ok ⟨p.1 + 1, s, p.2⟩) := by
  induction vs with
  | nil => intro tr c _ _; simp [addCallsFrom]
  | cons v rest ih =>
    intro tr c hc hv
    have hvh : v.falsy = false := hv v (by simp)
    have hvr : ∀ w ∈ rest, w.falsy = false := fun w hw => hv w (by simp [hw])
    have h1 : s.addCall v tr =
        (.ok ⟨c + 1, s, v⟩,
         { tr with callCount := setCount tr.callCount (s.transaction.id, s.id) (c + 1) }) := by
      simp [Segment.addCall, Call.make, hc, hvh]
    have h2 : getCount
        ({ tr with callCount := setCount tr.callCount (s.transaction.id, s.id) (c + 1) } : Tracer).callCount
        (s.transaction.id, s.id) = c + 1 := by
      simp [getCount_setCount]
    simp only [addCallsFrom, h1, List.enumFrom, List.map_cons, List.cons.injEq]
    exact ⟨trivial, ih _ (c + 1) h2 hvr⟩

/-- Extracting the ids from an all-ok segment result list. -/
theorem okSegIds_map (t : Transaction) (c : Nat) (vs : List Value) :
    okSegIds ((List.enumFrom c vs).map (fun p => .ok ⟨p.1 + 1, t, p.2⟩)) =
      (List.enumFrom c vs).map (fun p => p.1 + 1) := by
  induction vs generalizing c with
  | nil => simp [okSegIds, List.enumFrom]
  | cons v rest ih =>
    simp only [okSegIds, List.enumFrom, List.map_cons, List.filterMap_cons] at ih ⊢
    exact congrArg (List.cons (c + 1)) (ih (c + 1))

/-- Extracting the ids from an all-ok call result list. -/
theorem okCallIds_map (s : Segment) (c : Nat) (vs : List Value) :
    okCallIds ((List.enumFrom c vs).map (fun p => .ok ⟨p.1 + 1, s, p.2⟩)) =
      (List.enumFrom c vs).map (fun p => p.1 + 1) := by
  induction vs generalizing c with
  | nil => simp [okCallIds, List.enumFrom]
  | cons v rest ih =>
    simp only [okCallIds, List.enumFrom, List.map_cons, List.filterMap_cons] at ih ⊢
    exact congrArg (List.cons (c + 1)) (ih (c + 1))

/-- The successor of each enumeration index, as a contiguous range. -/
theorem enumFrom_ids (vs : List Value) :
    ∀ c : Nat, (List.enumFrom c vs).map (fun p => p.1 + 1) =
      List.range' (c + 1) vs.length := by
  induction vs with
  | nil => intro c; simp [List.enumFrom]
  | cons v rest ih =>
    intro c
    simp only [List.enumFrom, List.map_cons, List.length_cons, List.range']
    exact congrArg (List.cons (c + 1)) (ih (c + 1))

/-- C6: on a transaction whose segment counter is untouched, a run of
`addSegment` attempts with truthy values creates segments whose k-th id is
exactly k (ids `1, 2, ...` in order), and likewise for `addCall` under a
segment; the created ids are strictly increasing and never reused.  The
context plays no part: the iteration never reads or writes it, so whether
earlier entities were entered is irrelevant. -/
theorem c6_child_ids_sequential (t : Transaction) (sg : Segment)
    (vs ws : List Value) (tr tr2 : Tracer)
    (hs0 : getCount tr.segCount t.id = 0)
    (hv : ∀ v ∈ vs, v.falsy = false)
    (hc0 : getCount tr2.callCount (sg.transaction.id, sg.id) = 0)
    (hw : ∀ w ∈ ws, w.falsy = false) :
    (addSegmentsFrom t vs tr).1 =
      (List.enum vs).map (fun p => .ok ⟨p.1 + 1, t, p.2⟩) ∧
    okSegIds (addSegmentsFrom t vs tr).1 = List.range' 1 vs.length ∧
    List.Pairwise (fun a b => a < b) (okSegIds (addSegmentsFrom t vs tr).1) ∧
    (okSegIds (addSegmentsFrom t vs tr).1).Nodup ∧
    (addCallsFrom sg ws tr2).1 =
      (List.enum ws).map (fun p => .ok ⟨p.1 + 1, sg, p.2⟩) ∧
    okCallIds (addCallsFrom sg ws tr2).1 = List.range' 1 ws.length ∧
    List.Pairwise (fun a b => a < b) (okCallIds (addCallsFrom sg ws tr2).1) ∧
    (okCallIds (addCallsFrom sg ws tr2).1).Nodup := by
  have hseg := addSegmentsFrom_run t vs tr 0 hs0 hv
  have hcall := addCallsFrom_run sg ws tr2 0 hc0 hw
  have hsid : okSegIds (addSegmentsFrom t vs tr).1 = List.range' 1 vs.length := by
    rw [hseg, okSegIds_map, enumFrom_ids]
  have hcid : okCallIds (addCallsFrom sg ws tr2).1 = List.range' 1 ws.length := by
    rw [hcall, okCallIds_map, enumFrom_ids]
  refine ⟨hseg, hsid, ?_, ?_, hcall, hcid, ?_, ?_⟩
  · rw [hsid]; exact List.pairwise_lt_range' 1 vs.length
  · rw [hsid]; exact List.nodup_range' 1 vs.length
  · rw [hcid]; exact List.pairwise_lt_range' 1 ws.length
  · rw [hcid]; exact List.nodup_range' 1 ws.length

/-- C6 witness: two segment creations and one call creation from fresh
counters at concrete inputs. -/
theorem c6_witness :
    okSegIds (addSegmentsFrom tx1 [Value.obj 5, Value.obj 6] tracer0).1 =
      List.range' 1 2 ∧
    okCallIds (addCallsFrom seg1 [Value.fn 3] tracer0).1 = List.range' 1 1 :=
  ⟨(c6_child_ids_sequential tx1 seg1 [Value.obj 5, Value.obj 6] [Value.fn 3]
      tracer0 tracer0 rfl (by decide) rfl (by decide)).2.1,
   (c6_child_ids_sequential tx1 seg1 [Value.obj 5, Value.obj 6] [Value.fn 3]
      tracer0 tracer0 rfl (by decide) rfl (by decide)).2.2.2.2.2.1⟩

end NR
